import Mathlib

/-!
Shallow embedding of `src/tox_setuptools_version/hooks.py`.

Python strings are modelled as lists of characters (`PyStr`); `str.lower()`
is modelled character-wise by `Char.toLower` (ASCII letters, which is the
range the plugin manipulates), `str.strip()` by dropping `Char.isWhitespace`
characters from both ends, and `str.startswith` by a list prefix test.
Python `None` and dictionary misses are modelled by `Option`; the truthiness
test `if s:` on an optional string is "present and non-empty".

The module-level dictionary `PER_ENV_SETUPTOOLS_VERSIONS` is modelled by
explicit state passing: a `Registry` value threads through the two hook
functions, and each hook returns the (possibly updated) registry.
-/

namespace ToxSetuptoolsVersion

/-- A Python string, as a list of characters. -/
abbrev PyStr := List Char

/-- Model of Python `str.lower()` (character-wise ASCII lowering). -/
def pyLower (s : PyStr) : PyStr := s.map Char.toLower

/-- Dropping leading whitespace, the first half of Python `str.strip()`. -/
def pyStripLeft (s : PyStr) : PyStr := s.dropWhile Char.isWhitespace

/-- Dropping trailing whitespace, the second half of Python `str.strip()`. -/
def pyStripRight (s : PyStr) : PyStr :=
  (s.reverse.dropWhile Char.isWhitespace).reverse

/-- Model of Python `str.strip()`: remove whitespace from both ends. -/
def pyStrip (s : PyStr) : PyStr := pyStripRight (pyStripLeft s)

/-- Model of Python `a.startswith(pre)`. -/
def pyStartswith (pre s : PyStr) : Bool := pre.isPrefixOf s

/-- `TOX_SETUPTOOLS_VERSION_VAR = "TOX_SETUPTOOLS_VERSION"` from hooks.py. -/
def TOX_SETUPTOOLS_VERSION_VAR : PyStr := "TOX_SETUPTOOLS_VERSION".data

/-- `get_setuptools_package_version` from hooks.py:
lowercase and strip the input; if it starts with `"setuptools"` return it
unchanged, otherwise return `"setuptools==" + input`. -/
def get_setuptools_package_version (setuptools_version : PyStr) : PyStr :=
  let v := pyStrip (pyLower setuptools_version)
  if pyStartswith "setuptools".data v then v
  else "setuptools==".data ++ v

/-- The module-level dictionary `PER_ENV_SETUPTOOLS_VERSIONS`, modelled as a
map from environment name to the recorded raw version string. -/
def Registry := PyStr → Option PyStr

/-- The dictionary starts out empty. -/
def emptyRegistry : Registry := fun _ => none

/-- One iteration of the loop body of `tox_configure`: given the value the
config reader produced for `setuptools_version` in one environment
(`none` models Python `None`/absence), store it under the environment name
when it is truthy, i.e. present and non-empty (`if setuptools_version:`). -/
def record (r : Registry) (env : PyStr) (setuptools_version : Option PyStr) :
    Registry :=
  match setuptools_version with
  | some v => if v = [] then r else fun e => if e = env then some v else r e
  | none => r

/-- `tox_configure` from hooks.py: visit every environment of the host
configuration (a list of pairs of environment name and the optional
`setuptools_version` string its reader yields) and record each value. -/
def tox_configure (envconfigs : List (PyStr × Option PyStr)) (r : Registry) :
    Registry :=
  envconfigs.foldl (fun acc p => record acc p.1 p.2) r

/-- The expression `env.get(TOX_SETUPTOOLS_VERSION_VAR, getenv(TOX_SETUPTOOLS_VERSION_VAR))`
from `tox_testenv_install_deps`: consult the venv-scoped environment map
(`venv._get_os_environ()`, which honours `setenv`), and only when the key is
absent there fall back to the process environment (`os.getenv`). -/
def fallback_version (env osenv : PyStr → Option PyStr) : Option PyStr :=
  match env TOX_SETUPTOOLS_VERSION_VAR with
  | some v => some v
  | none => osenv TOX_SETUPTOOLS_VERSION_VAR

/-- The expression `PER_ENV_SETUPTOOLS_VERSIONS.get(venvname, fallback)`:
the registry entry when present, otherwise the fallback. -/
def resolve (r : Registry) (venvname : PyStr) (fallback : Option PyStr) :
    Option PyStr :=
  match r venvname with
  | some v => some v
  | none => fallback

/-- Result of one run of `tox_testenv_install_deps`: the registry as the hook
leaves it, and the package specifier handed to `venv._install` (with
`--upgrade`), or `none` when no install is requested. -/
structure InstallDepsResult where
  registry : Registry
  installed : Option PyStr

/-- `tox_testenv_install_deps` from hooks.py: compute the environment-variable
fallback, resolve the version with registry precedence, and when the result
is truthy (present and non-empty) normalize it and request installation. -/
def tox_testenv_install_deps (r : Registry) (venvname : PyStr)
    (env osenv : PyStr → Option PyStr) : InstallDepsResult :=
  let tox_setuptools_version_from_env := fallback_version env osenv
  match resolve r venvname tox_setuptools_version_from_env with
  | some v =>
      if v = [] then ⟨r, none⟩
      else ⟨r, some (get_setuptools_package_version v)⟩
  | none => ⟨r, none⟩

/-- A concrete venv-scoped environment map binding the variable. -/
def envScoped : PyStr → Option PyStr :=
  fun k => if k = TOX_SETUPTOOLS_VERSION_VAR then some "58.0.0".data else none

/-- A concrete process environment binding the variable to another value. -/
def procEnv : PyStr → Option PyStr :=
  fun k => if k = TOX_SETUPTOOLS_VERSION_VAR then some "57.0.0".data else none

/-- An environment with no bindings at all. -/
def noEnv : PyStr → Option PyStr := fun _ => none

/-- A venv-scoped environment map binding the variable to the empty string. -/
def envEmptyVal : PyStr → Option PyStr :=
  fun k => if k = TOX_SETUPTOOLS_VERSION_VAR then some [] else none

/-- C1: once `record(env, x)` stored a non-empty `x`, `resolve(env, f)`
returns that stored value, whatever the fallback `f` is. -/
theorem resolve_after_record (r : Registry) (env x : PyStr) (f : Option PyStr)
    (hx : x ≠ []) : resolve (record r env (some x)) env f = some x := by
  simp [record, resolve, hx]

/-- Witness for `resolve_after_record` at the spec's scenario
`record("py36", "19.0")` then `resolve("py36", "20.0")`. -/
theorem resolve_after_record_witness :
    ("19.0".data ≠ ([] : PyStr)) ∧
      resolve (record emptyRegistry "py36".data (some "19.0".data))
        "py36".data (some "20.0".data) = some "19.0".data :=
  ⟨by decide,
   resolve_after_record emptyRegistry "py36".data "19.0".data
     (some "20.0".data) (by decide)⟩

/-- After folding `record` over any environment list starting from `r`, an
entry exists exactly when some visited pair supplied a non-empty value or the
entry was already in `r`. -/
theorem tox_configure_mem (envconfigs : List (PyStr × Option PyStr))
    (r : Registry) (e : PyStr) :
    (tox_configure envconfigs r) e ≠ none ↔
      (∃ v, (e, some v) ∈ envconfigs ∧ v ≠ []) ∨ r e ≠ none := by
  induction envconfigs generalizing r with
  | nil => simp [tox_configure]
  | cons p t ih =>
    obtain ⟨e0, ov⟩ := p
    have hstep : tox_configure ((e0, ov) :: t) r =
        tox_configure t (record r e0 ov) := rfl
    rw [hstep, ih]
    cases ov with
    | none => simp [record]
    | some v0 =>
      by_cases hv : v0 = []
      · subst hv
        simp only [record, if_pos rfl]
        constructor
        · rintro (⟨v, hv1, hv2⟩ | hr)
          · exact Or.inl ⟨v, List.mem_cons_of_mem _ hv1, hv2⟩
          · exact Or.inr hr
        · rintro (⟨v, hv1, hv2⟩ | hr)
          · rcases List.mem_cons.mp hv1 with h | h
            · cases h
              exact absurd rfl hv2
            · exact Or.inl ⟨v, h, hv2⟩
          · exact Or.inr hr
      · simp only [record, if_neg hv]
        by_cases he : e = e0
        · subst he
          simp only [if_pos rfl]
          constructor
          · intro _
            exact Or.inl ⟨v0, List.mem_cons_self _ _, hv⟩
          · intro _
            exact Or.inr (by simp)
        · simp only [if_neg he]
          constructor
          · rintro (⟨v, hv1, hv2⟩ | hr)
            · exact Or.inl ⟨v, List.mem_cons_of_mem _ hv1, hv2⟩
            · exact Or.inr hr
          · rintro (⟨v, hv1, hv2⟩ | hr)
            · rcases List.mem_cons.mp hv1 with h | h
              · cases h
                exact absurd rfl he
              · exact Or.inl ⟨v, h, hv2⟩
            · exact Or.inr hr

/-- C4: after the configuration phase starting from the empty registry, the
registry holds an entry for an environment exactly when that environment
supplied a present, non-empty version string; absent or empty values create
no entry. -/
theorem registry_invariant (envconfigs : List (PyStr × Option PyStr))
    (e : PyStr) :
    (tox_configure envconfigs emptyRegistry) e ≠ none ↔
      ∃ v, (e, some v) ∈ envconfigs ∧ v ≠ [] := by
  have h := tox_configure_mem envconfigs emptyRegistry e
  simpa [emptyRegistry] using h

/-- C5: with no registry entry for the environment, `resolve` returns the
fallback unchanged. -/
theorem resolve_fallback (r : Registry) (env : PyStr) (f : Option PyStr)
    (h : r env = none) : resolve r env f = f := by
  simp [resolve, h]

/-- Witness for `resolve_fallback` at the spec's scenario: no `record` call
for `"py37"`, fallback `"setuptools==21.0"`. -/
theorem resolve_fallback_witness :
    (emptyRegistry "py37".data = none) ∧
      resolve emptyRegistry "py37".data (some "setuptools==21.0".data) =
        some "setuptools==21.0".data :=
  ⟨rfl, resolve_fallback emptyRegistry "py37".data
    (some "setuptools==21.0".data) rfl⟩

/-- C6: the fallback consulted by the install hook is two-level: the
venv-scoped binding of `TOX_SETUPTOOLS_VERSION` wins outright, and the
process-level binding is consulted only when the venv-scoped map has no
binding for the key. -/
theorem fallback_precedence (env osenv : PyStr → Option PyStr) :
    (∀ v, env TOX_SETUPTOOLS_VERSION_VAR = some v →
        fallback_version env osenv = some v) ∧
      (env TOX_SETUPTOOLS_VERSION_VAR = none →
        fallback_version env osenv = osenv TOX_SETUPTOOLS_VERSION_VAR) := by
  constructor
  · intro v h
    simp [fallback_version, h]
  · intro h
    simp [fallback_version, h]

/-- Witness for `fallback_precedence`: a venv-scoped `58.0.0` beats a
process-level `57.0.0`, and with no venv-scoped binding the process value is
used. -/
theorem fallback_precedence_witness :
    fallback_version envScoped procEnv = some "58.0.0".data ∧
      fallback_version noEnv procEnv = procEnv TOX_SETUPTOOLS_VERSION_VAR :=
  ⟨(fallback_precedence envScoped procEnv).1 "58.0.0".data (by decide),
   (fallback_precedence noEnv procEnv).2 (by decide)⟩

/-- C7: when neither the registry nor either environment level yields a
value, the hook requests no installation: the outcome is a no-op, not an
error. -/
theorem no_value_no_install (r : Registry) (venvname : PyStr)
    (env osenv : PyStr → Option PyStr)
    (h1 : r venvname = none)
    (h2 : env TOX_SETUPTOOLS_VERSION_VAR = none)
    (h3 : osenv TOX_SETUPTOOLS_VERSION_VAR = none) :
    resolve r venvname (fallback_version env osenv) = none ∧
      (tox_testenv_install_deps r venvname env osenv).installed = none := by
  constructor
  · simp [resolve, fallback_version, h1, h2, h3]
  · simp [tox_testenv_install_deps, fallback_version, resolve, h1, h2, h3]

/-- Witness for `no_value_no_install`: empty registry and empty
environments. -/
theorem no_value_no_install_witness :
    resolve emptyRegistry "py38".data (fallback_version noEnv noEnv) = none ∧
      (tox_testenv_install_deps emptyRegistry "py38".data noEnv
        noEnv).installed = none :=
  no_value_no_install emptyRegistry "py38".data noEnv noEnv rfl rfl rfl

/-- C9: the install hook never mutates the registry — the registry it
returns is the one it was given — and therefore what any other environment
resolves to is unchanged by running the hook. -/
theorem install_deps_preserves_registry (r : Registry) (venvname : PyStr)
    (env osenv : PyStr → Option PyStr) (e : PyStr) (f : Option PyStr) :
    (tox_testenv_install_deps r venvname env osenv).registry = r ∧
      resolve (tox_testenv_install_deps r venvname env osenv).registry e f =
        resolve r e f := by
  have hreg : (tox_testenv_install_deps r venvname env osenv).registry = r := by
    unfold tox_testenv_install_deps
    rcases hres : resolve r venvname (fallback_version env osenv) with _ | v
    · simp [hres]
    · by_cases hv : v = [] <;> simp [hres, hv]
  exact ⟨hreg, by rw [hreg]⟩

/-- C10: an empty-string venv-scoped binding shadows the process-level
binding — the fallback is the empty string — and for an environment without
a registry entry no installation is requested, whatever the process
environment holds. -/
theorem empty_setenv_shadows (r : Registry) (venvname : PyStr)
    (env osenv : PyStr → Option PyStr)
    (h1 : r venvname = none)
    (h2 : env TOX_SETUPTOOLS_VERSION_VAR = some []) :
    fallback_version env osenv = some [] ∧
      (tox_testenv_install_deps r venvname env osenv).installed = none := by
  constructor
  · simp [fallback_version, h2]
  · simp [tox_testenv_install_deps, fallback_version, resolve, h1, h2]

/-- Witness for `empty_setenv_shadows`: `setenv` binds the variable to the
empty string while the process environment holds `57.0.0`; no install. -/
theorem empty_setenv_shadows_witness :
    fallback_version envEmptyVal procEnv = some [] ∧
      (tox_testenv_install_deps emptyRegistry "py39".data envEmptyVal
        procEnv).installed = none :=
  empty_setenv_shadows emptyRegistry "py39".data envEmptyVal procEnv rfl
    (by decide)

/-- Packing a valid code point and unpacking it round-trips. -/
theorem toNat_ofNat_valid {n : Nat} (h : n.isValidChar) :
    (Char.ofNat n).toNat = n := by
  rw [Char.ofNat, dif_pos h]
  rfl

/-- On an ASCII capital letter, `Char.toLower` adds 32 to the code point. -/
theorem toLower_eq_of_le {c : Char} (h : c.toNat ≥ 65 ∧ c.toNat ≤ 90) :
    Char.toLower c = Char.ofNat (c.toNat + 32) := by
  show (if c.toNat ≥ 65 ∧ c.toNat ≤ 90 then Char.ofNat (c.toNat + 32) else c) = _
  rw [if_pos h]

/-- Outside the ASCII capital letters, `Char.toLower` is the identity. -/
theorem toLower_eq_of_not {c : Char} (h : ¬(c.toNat ≥ 65 ∧ c.toNat ≤ 90)) :
    Char.toLower c = c := by
  show (if c.toNat ≥ 65 ∧ c.toNat ≤ 90 then Char.ofNat (c.toNat + 32) else c) = _
  rw [if_neg h]

/-- A whitespace character has code point 32, 9, 13 or 10. -/
theorem toNat_of_isWhitespace {c : Char} (hw : c.isWhitespace = true) :
    c.toNat = 32 ∨ c.toNat = 9 ∨ c.toNat = 13 ∨ c.toNat = 10 := by
  simp only [Char.isWhitespace, Bool.or_eq_true, decide_eq_true_eq] at hw
  rcases hw with ((h1 | h1) | h1) | h1 <;> subst h1 <;> decide

/-- A character whose code point is none of 32, 9, 13, 10 is not
whitespace. -/
theorem isWhitespace_eq_false_of_ne {c : Char} (h32 : c.toNat ≠ 32)
    (h9 : c.toNat ≠ 9) (h13 : c.toNat ≠ 13) (h10 : c.toNat ≠ 10) :
    c.isWhitespace = false := by
  cases hw : c.isWhitespace
  · rfl
  · rcases toNat_of_isWhitespace hw with h | h | h | h <;> simp_all

/-- Lowering a character does not change whether it is whitespace. -/
theorem isWhitespace_toLower (c : Char) :
    (Char.toLower c).isWhitespace = c.isWhitespace := by
  by_cases h : c.toNat ≥ 65 ∧ c.toNat ≤ 90
  · rw [toLower_eq_of_le h]
    have h1 : (Char.ofNat (c.toNat + 32)).toNat = c.toNat + 32 :=
      toNat_ofNat_valid (Or.inl (by omega))
    rw [isWhitespace_eq_false_of_ne (by rw [h1]; omega) (by rw [h1]; omega)
        (by rw [h1]; omega) (by rw [h1]; omega),
      isWhitespace_eq_false_of_ne (by omega) (by omega) (by omega) (by omega)]
  · rw [toLower_eq_of_not h]

/-- `Char.toLower` is idempotent. -/
theorem toLower_toLower (c : Char) :
    Char.toLower (Char.toLower c) = Char.toLower c := by
  by_cases h : c.toNat ≥ 65 ∧ c.toNat ≤ 90
  · rw [toLower_eq_of_le h]
    have h1 : (Char.ofNat (c.toNat + 32)).toNat = c.toNat + 32 :=
      toNat_ofNat_valid (Or.inl (by omega))
    apply toLower_eq_of_not
    rw [h1]
    omega
  · rw [toLower_eq_of_not h, toLower_eq_of_not h]

/-- `dropWhile` is idempotent. -/
theorem dropWhile_dropWhile {α : Type} (p : α → Bool) (l : List α) :
    List.dropWhile p (List.dropWhile p l) = List.dropWhile p l := by
  induction l with
  | nil => rfl
  | cons a t ih =>
    by_cases h : p a
    · simp [List.dropWhile_cons, h, ih]
    · simp [List.dropWhile_cons, h]

/-- The head of a non-empty `dropWhile` result fails the predicate. -/
theorem head_false_of_dropWhile_eq_cons {α : Type} {p : α → Bool} {l t : List α}
    {a : α} (h : List.dropWhile p l = a :: t) : p a = false := by
  induction l with
  | nil => simp at h
  | cons b u ih =>
    rw [List.dropWhile_cons] at h
    by_cases hb : p b
    · rw [if_pos hb] at h
      exact ih h
    · rw [if_neg hb] at h
      cases h
      simpa using hb

/-- Dropping leading whitespace twice is the same as doing it once. -/
theorem pyStripLeft_idem (s : PyStr) :
    pyStripLeft (pyStripLeft s) = pyStripLeft s :=
  dropWhile_dropWhile _ s

/-- The reverse of a right strip is a left strip of the reverse. -/
theorem reverse_pyStripRight (s : PyStr) :
    (pyStripRight s).reverse = s.reverse.dropWhile Char.isWhitespace := by
  simp [pyStripRight]

/-- Dropping trailing whitespace twice is the same as doing it once. -/
theorem pyStripRight_idem (s : PyStr) :
    pyStripRight (pyStripRight s) = pyStripRight s := by
  show ((pyStripRight s).reverse.dropWhile Char.isWhitespace).reverse = _
  rw [reverse_pyStripRight, dropWhile_dropWhile]
  rfl

/-- The right strip of a string is an initial segment of it. -/
theorem pyStripRight_isInitial (s : PyStr) :
    ∃ w, pyStripRight s ++ w = s := by
  obtain ⟨t, ht⟩ := @List.dropWhile_suffix Char s.reverse Char.isWhitespace
  refine ⟨t.reverse, ?_⟩
  have h := congrArg List.reverse ht
  rw [List.reverse_append, List.reverse_reverse] at h
  simpa [pyStripRight] using h

/-- A string with no leading whitespace keeps that property under a right
strip. -/
theorem pyStripLeft_pyStripRight {s : PyStr} (h : pyStripLeft s = s) :
    pyStripLeft (pyStripRight s) = pyStripRight s := by
  rcases hr : pyStripRight s with _ | ⟨b, u⟩
  · rfl
  · obtain ⟨w, hw⟩ := pyStripRight_isInitial s
    rw [hr] at hw
    have hsw : s = b :: (u ++ w) := by
      rw [← hw]
      rfl
    rw [hsw] at h
    have hb : Char.isWhitespace b = false :=
      head_false_of_dropWhile_eq_cons h
    show List.dropWhile Char.isWhitespace (b :: u) = b :: u
    rw [List.dropWhile_cons_of_neg (by simp [hb])]

/-- Python `strip` is idempotent. -/
theorem pyStrip_pyStrip (s : PyStr) : pyStrip (pyStrip s) = pyStrip s := by
  show pyStripRight (pyStripLeft (pyStripRight (pyStripLeft s))) = _
  rw [pyStripLeft_pyStripRight (pyStripLeft_idem s), pyStripRight_idem]
  rfl

/-- Whitespace tests are unchanged by lowering, as a function equation. -/
theorem isWhitespace_comp_toLower :
    (Char.isWhitespace ∘ Char.toLower) = Char.isWhitespace :=
  funext isWhitespace_toLower

/-- Left strip commutes with lowering. -/
theorem pyStripLeft_pyLower (s : PyStr) :
    pyStripLeft (pyLower s) = pyLower (pyStripLeft s) := by
  unfold pyStripLeft pyLower
  rw [List.dropWhile_map, isWhitespace_comp_toLower]

/-- Right strip commutes with lowering. -/
theorem pyStripRight_pyLower (s : PyStr) :
    pyStripRight (pyLower s) = pyLower (pyStripRight s) := by
  unfold pyStripRight pyLower
  rw [← List.map_reverse, List.dropWhile_map, isWhitespace_comp_toLower,
    List.map_reverse]

/-- Python `strip` commutes with Python `lower`. -/
theorem pyStrip_pyLower (s : PyStr) :
    pyStrip (pyLower s) = pyLower (pyStrip s) := by
  unfold pyStrip
  rw [pyStripLeft_pyLower, pyStripRight_pyLower]

/-- Python `lower` is idempotent. -/
theorem pyLower_pyLower (s : PyStr) : pyLower (pyLower s) = pyLower s := by
  unfold pyLower
  rw [List.map_map]
  have h : Char.toLower ∘ Char.toLower = Char.toLower := funext toLower_toLower
  rw [h]

/-- A list is a list-prefix of itself followed by anything. -/
theorem isPrefixOf_append_self (l r : PyStr) :
    List.isPrefixOf l (l ++ r) = true := by
  induction l with
  | nil => simp [List.isPrefixOf]
  | cons a t ih => simp [List.isPrefixOf, ih]

/-- Prepending the literal `setuptools==` to a string with no trailing
whitespace yields a string that stripping leaves unchanged. -/
theorem pyStrip_setuptools_append (s : PyStr)
    (hs : List.dropWhile Char.isWhitespace s.reverse = s.reverse) :
    pyStrip ("setuptools==".data ++ s) = "setuptools==".data ++ s := by
  have h1 : pyStripLeft ("setuptools==".data ++ s) =
      "setuptools==".data ++ s := by
    have e : "setuptools==".data ++ s = 's' :: ("etuptools==".data ++ s) := rfl
    unfold pyStripLeft
    rw [e, List.dropWhile_cons_of_neg (by decide)]
  have h2 : pyStripRight ("setuptools==".data ++ s) =
      "setuptools==".data ++ s := by
    rcases hrev : s.reverse with _ | ⟨c, w⟩
    · have h0 : s = [] := by simpa using congrArg List.reverse hrev
      subst h0
      decide
    · have hc : Char.isWhitespace c = false :=
        head_false_of_dropWhile_eq_cons (hs.trans hrev)
      unfold pyStripRight
      rw [List.reverse_append, hrev, List.cons_append,
        List.dropWhile_cons_of_neg (by simp [hc]), ← List.cons_append, ← hrev,
        ← List.reverse_append, List.reverse_reverse]
  show pyStripRight (pyStripLeft ("setuptools==".data ++ s)) = _
  rw [h1, h2]

/-- C2: when the stripped, lowered input does not start with `setuptools`,
the normalizer returns `setuptools==` prepended to the stripped, lowered
input. -/
theorem normalize_bare (v : PyStr)
    (h : pyStartswith "setuptools".data (pyLower (pyStrip v)) = false) :
    get_setuptools_package_version v =
      "setuptools==".data ++ pyLower (pyStrip v) := by
  simp only [get_setuptools_package_version]
  rw [pyStrip_pyLower, if_neg (by simp [h])]

/-- Witness for `normalize_bare`: the empty string maps to
`setuptools==`. -/
theorem normalize_bare_witness :
    (pyStartswith "setuptools".data (pyLower (pyStrip [])) = false) ∧
      get_setuptools_package_version [] = "setuptools==".data :=
  ⟨by decide, by rw [normalize_bare [] (by decide)]; decide⟩

/-- C3: when the stripped, lowered input starts with `setuptools`, the
normalizer returns exactly the stripped, lowered input. -/
theorem normalize_passthrough (v : PyStr)
    (h : pyStartswith "setuptools".data (pyLower (pyStrip v)) = true) :
    get_setuptools_package_version v = pyLower (pyStrip v) := by
  simp only [get_setuptools_package_version]
  rw [pyStrip_pyLower, if_pos h]

/-- Witness for `normalize_passthrough` at the spec's mixed-case example
`SetupTools>=18` (with outer whitespace). -/
theorem normalize_passthrough_witness :
    (pyStartswith "setuptools".data
        (pyLower (pyStrip " SetupTools>=18 ".data)) = true) ∧
      get_setuptools_package_version " SetupTools>=18 ".data =
        "setuptools>=18".data :=
  ⟨by decide, by
    rw [normalize_passthrough " SetupTools>=18 ".data (by decide)]
    decide⟩

/-- C8: the normalizer is idempotent on its own output. -/
theorem normalize_idem (x : PyStr) :
    get_setuptools_package_version (get_setuptools_package_version x) =
      get_setuptools_package_version x := by
  have hlow : pyLower (pyStrip (pyLower x)) = pyStrip (pyLower x) := by
    rw [← pyStrip_pyLower, pyLower_pyLower]
  have hstrip : pyStrip (pyStrip (pyLower x)) = pyStrip (pyLower x) :=
    pyStrip_pyStrip (pyLower x)
  have hclean : List.dropWhile Char.isWhitespace
      (pyStrip (pyLower x)).reverse = (pyStrip (pyLower x)).reverse := by
    show List.dropWhile _ (pyStripRight (pyStripLeft (pyLower x))).reverse = _
    rw [reverse_pyStripRight, dropWhile_dropWhile, ← reverse_pyStripRight]
    rfl
  by_cases hA : pyStartswith "setuptools".data (pyStrip (pyLower x)) = true
  · have hNx : get_setuptools_package_version x = pyStrip (pyLower x) := by
      simp only [get_setuptools_package_version]
      rw [if_pos hA]
    rw [hNx]
    simp only [get_setuptools_package_version]
    rw [hlow, hstrip, if_pos hA]
  · have hNx : get_setuptools_package_version x =
        "setuptools==".data ++ pyStrip (pyLower x) := by
      simp only [get_setuptools_package_version]
      rw [if_neg hA]
    rw [hNx]
    simp only [get_setuptools_package_version]
    have h1 : pyLower ("setuptools==".data ++ pyStrip (pyLower x)) =
        "setuptools==".data ++ pyStrip (pyLower x) := by
      have hm : pyLower "setuptools==".data = "setuptools==".data := by decide
      calc pyLower ("setuptools==".data ++ pyStrip (pyLower x))
          = pyLower "setuptools==".data ++ pyLower (pyStrip (pyLower x)) :=
            List.map_append _ _ _
        _ = "setuptools==".data ++ pyStrip (pyLower x) := by rw [hm, hlow]
    have hpre : pyStartswith "setuptools".data
        ("setuptools==".data ++ pyStrip (pyLower x)) = true := by
      have h := isPrefixOf_append_self "setuptools".data
        ("==".data ++ pyStrip (pyLower x))
      unfold pyStartswith
      rwa [← List.append_assoc,
        show "setuptools".data ++ "==".data = "setuptools==".data from by
          decide] at h
    rw [h1, pyStrip_setuptools_append (pyStrip (pyLower x)) hclean, if_pos hpre]

end ToxSetuptoolsVersion
